import Mathlib

/-!
# Verification of the Landsat harmonic-regression pipeline

A shallow embedding of `src/Landsat_Harmonic_Regression.js`, a Google Earth
Engine script that fits a harmonic regression model to a per-pixel NDVI time
series, derives amplitude/phase bands, composites yearly median fitted values,
and exports quantized rasters.

The embedding works per pixel: an image is an association list of named bands
(`List (String × ℝ)`), an image collection is a list of images, and each
map/reduce step of the script becomes a Lean function on these structures.
Platform reducers whose internals are not part of the repository
(`ee.Reducer.linearRegression`, `median`, the `toShort` cast) are modelled
from the spec where noted.
-/

namespace HarmonicRegression

/-- A per-pixel image: an association list of named bands. -/
abbrev Image := List (String × ℝ)

/-- Value of band `n` of image `img` (the first band with that name;
0 if absent — the script only reads bands it has previously added). -/
def bandValue (img : Image) (n : String) : ℝ :=
  (List.lookup n img).getD 0

/-- Names of the bands of an image, in order. -/
def bandNames (img : Image) : List String :=
  img.map Prod.fst

/-- Source: `var harmonics = 3;` — the number of cycles per year to model. -/
def harmonics : ℕ := 3

/-- Source: `ee.List.sequence(1, k)` — the harmonic frequencies `[1, …, k]`. -/
def harmonicFrequenciesK (k : ℕ) : List ℕ :=
  List.range' 1 k

/-- Source: `var harmonicFrequencies = ee.List.sequence(1, harmonics);` -/
def harmonicFrequencies : List ℕ :=
  harmonicFrequenciesK harmonics

/-- Source: `getNames` — band names `base1, …, basek` for the harmonic terms. -/
def getNames (base : String) (list : List ℕ) : List String :=
  list.map (fun i => base ++ toString i)

/-- Source: `var cosNames = getNames('cos_', harmonicFrequencies);` (generic `k`). -/
def cosNamesK (k : ℕ) : List String := getNames "cos_" (harmonicFrequenciesK k)

/-- Source: `var sinNames = getNames('sin_', harmonicFrequencies);` (generic `k`). -/
def sinNamesK (k : ℕ) : List String := getNames "sin_" (harmonicFrequenciesK k)

/-- Source: `var ampNames = getNames('amplitude_', harmonicFrequencies);` -/
def ampNames : List String := getNames "amplitude_" harmonicFrequencies

/-- Source: `var phaseNames = getNames('phase_', harmonicFrequencies);` -/
def phaseNames : List String := getNames "phase_" harmonicFrequencies

/-- Source: `var independents = ee.List(['constant', 't']).cat(cosNames).cat(sinNames);`
(generic in the harmonic count `k`). -/
def independentsK (k : ℕ) : List String :=
  ["constant", "t"] ++ cosNamesK k ++ sinNamesK k

/-- The script's independents list, at its configured `harmonics = 3`. -/
def independents : List String := independentsK harmonics

/-- One satellite observation at a fixed pixel, after cloud/saturation
masking (masked observations are absent from the series, per the spec's
preprocessor contract).  `date` is the acquisition time as fractional years
since 1970-01-01 (the coordinate in which `ee.Date.difference(·, 'year')`
measures), `day` is the calendar date in the order-faithful `y*10000 +
m*100 + d` encoding used for window filtering, and `ndvi` is the dependent
variable computed by `addNDVI`. -/
structure Observation where
  date : ℝ
  day : ℕ
  ndvi : ℝ

/-- The image an observation starts from once `addNDVI` has run: the script
selects only `independents.add(dependent)`, so the NDVI band is the part of
the masked image that feeds the regression. -/
def ndviImage (o : Observation) : Image :=
  [("NDVI", o.ndvi)]

/-- Source: `addConstant` — adds a constant-1 band. -/
def addConstant (image : Image) : Image :=
  image ++ [("constant", 1)]

/-- Source: `ee.Date('1970-01-01')` in fractional-year coordinates. -/
def epoch1970 : ℝ := 0

/-- Source: `date.difference(e, 'year')` — elapsed time in fractional years. -/
def dateDifferenceYears (d e : ℝ) : ℝ := d - e

/-- Source: `addTime` — adds the band `t`, time in fractional years since the epoch
multiplied by `2π`. -/
noncomputable def addTime (date : ℝ) (image : Image) : Image :=
  image ++ [("t", dateDifferenceYears date epoch1970 * (2 * Real.pi))]

/-- Source: `addHarmonics(freqs)` — reads the `t` band and adds the cosine bands
`cos_i = cos(t·i)` and then the sine bands `sin_i = sin(t·i)`. -/
noncomputable def addHarmonics (freqs : List ℕ) (image : Image) : Image :=
  image
    ++ freqs.map (fun i => ("cos_" ++ toString i, Real.cos (bandValue image "t" * (i : ℕ))))
    ++ freqs.map (fun i => ("sin_" ++ toString i, Real.sin (bandValue image "t" * (i : ℕ))))

/-- The per-observation image built by the `harmonicLandsat` map chain
(`addNDVI`, `addConstant`, `addTime`, `addHarmonics`), generic in `k`. -/
noncomputable def buildImageK (k : ℕ) (o : Observation) : Image :=
  addHarmonics (harmonicFrequenciesK k) (addTime o.date (addConstant (ndviImage o)))

/-- The script's per-observation image at its configured `harmonics = 3`. -/
noncomputable def buildImage (o : Observation) : Image :=
  buildImageK harmonics o

/-- Source: `image.select(names)` — the values of the named bands, in the order the
names are listed. -/
def selectValues (names : List String) (img : Image) : List ℝ :=
  names.map (bandValue img)

/-- The regression design row of an observation: the `independents` bands of
its built image, in the `independents` order. -/
noncomputable def designRow (o : Observation) : List ℝ :=
  selectValues independents (buildImage o)

/-- The time regressor of an observation: fractional years since the 1970
epoch times `2π` (the value `addTime` stores in band `t`). -/
noncomputable def timeRadians (o : Observation) : ℝ :=
  dateDifferenceYears o.date epoch1970 * (2 * Real.pi)

/-- Source: `harmonicTrend.select('coefficients').arrayProject([0]).arrayFlatten([independents])`
— the fitted coefficient vector turned into a multi-band image, one band per
independent, named in the `independents` order. -/
def coefficientsImage (fit : List ℝ) : Image :=
  independents.zip fit

/-- Source: `a.hypot(b)` — `√(a² + b²)`. -/
noncomputable def hypot (a b : ℝ) : ℝ :=
  Real.sqrt (a ^ 2 + b ^ 2)

/-- Lines 153–156: `select('sin_.').hypot(select('cos_.')).multiply(5).rename(ampNames)`
— per harmonic `i`, the band `amplitude_i = hypot(sin_i, cos_i) * 5` (the
script folds a ×5 visualization scale factor into the band). -/
noncomputable def amplitudeBands (c : Image) : Image :=
  harmonicFrequencies.map (fun i =>
    ("amplitude_" ++ toString i,
      hypot (bandValue c ("sin_" ++ toString i)) (bandValue c ("cos_" ++ toString i)) * 5))

/-- Source: `y.atan2(x)` — the angle of the point `(x, y)`, in `(-π, π]`. -/
noncomputable def atan2 (y x : ℝ) : ℝ :=
  Complex.arg ⟨x, y⟩

/-- Source: `v.unitScale(low, high)` — rescales `[low, high]` linearly onto `[0, 1]`. -/
noncomputable def unitScale (low high x : ℝ) : ℝ :=
  (x - low) / (high - low)

/-- Lines 159–161: `select('sin_.').atan2(select('cos_.')).unitScale(-π, π).rename(phaseNames)`
— per harmonic `i`, the band `phase_i = atan2(sin_i, cos_i)` rescaled from
`[-π, π]` to `[0, 1]`. -/
noncomputable def phaseBands (c : Image) : Image :=
  harmonicFrequencies.map (fun i =>
    ("phase_" ++ toString i,
      unitScale (-Real.pi) Real.pi
        (atan2 (bandValue c ("sin_" ++ toString i)) (bandValue c ("cos_" ++ toString i)))))

/-- Source: `harmonicLandsat.select('NDVI').reduce('mean')` — the temporal mean of
the dependent variable over the series. -/
noncomputable def ndviMean (series : List Observation) : ℝ :=
  (series.map Observation.ndvi).sum / series.length

/-- Lines 137–165 composed: the coefficients image with amplitude bands,
then phase bands (computed from the amplitude-extended image, as in the
script), then the `NDVI_mean` band appended. -/
noncomputable def harmonicTrendCoefficients (fit : List ℝ) (series : List Observation) : Image :=
  let c0 := coefficientsImage fit
  let c1 := c0 ++ amplitudeBands c0
  let c2 := c1 ++ phaseBands c1
  c2 ++ [("NDVI_mean", ndviMean series)]

/-- Lines 142–148: `image.select(independents).multiply(harmonicTrendCoefficients).reduce('sum')`
— the fitted value: the per-band product of the observation's independent
bands with the same-named coefficient bands, summed. -/
noncomputable def fittedValue (fit : List ℝ) (img : Image) : ℝ :=
  (independents.map (fun n => bandValue img n * bandValue (coefficientsImage fit) n)).sum

/-- The spec's dot product of a design row with a coefficient vector:
the componentwise products summed. -/
def dotProduct : List ℝ → List ℝ → ℝ
  | a :: as, b :: bs => a * b + dotProduct as bs
  | _, _ => 0

/-- Modelled from the spec: the platform's `toShort()` cast used for storage
(`multiply(10000).toShort()`, lines 240–241 and 201–205) is not part of the
repository; the spec fixes the storage encoding as `round(v*10000)` clamped
to the signed 16-bit range.  Exact rational arithmetic stands in for the
platform's floating point. -/
def encodeShort (v : ℚ) : ℤ :=
  max (-32768) (min 32767 (round (v * 10000)))

/-- Decoding a stored fixed-point coefficient back to a value. -/
def decodeShort (e : ℤ) : ℚ :=
  (e : ℚ) / 10000

/-- Source: `ee.Date.fromYMD(y, m, d)` in an order-faithful encoding: calendar order
of valid dates agrees with numeric order of `y·10000 + m·100 + d`. -/
def fromYMD (y m d : ℕ) : ℕ :=
  y * 10000 + m * 100 + d

/-- One image of the fitted collection, tagged with its acquisition day
(the timestamp `filterDate` compares). -/
structure TimedImage where
  day : ℕ
  image : Image

/-- Source: `collection.filterDate(startDate, endDate)` — keeps the images acquired
in the half-open range `[startDate, endDate)`. -/
def filterDate (startDate endDate : ℕ) (c : List TimedImage) : List TimedImage :=
  c.filter (fun ti => startDate ≤ ti.day && ti.day < endDate)

/-- Lines 142–148 as a collection: each observation's built image with the
`fitted` band appended, tagged with its acquisition day. -/
noncomputable def fittedHarmonic (fit : List ℝ) (series : List Observation) : List TimedImage :=
  series.map (fun o => ⟨o.day, buildImage o ++ [("fitted", fittedValue fit (buildImage o))]⟩)

/-- Source: `collection.median()` — per band name of the collection's images, the
pixel-wise median of that band across the collection; an empty collection
yields an image with no bands.  The median reducer itself is platform code,
abstracted as the parameter `med`. -/
def reduceMedian (med : List ℝ → ℝ) (c : List TimedImage) : Image :=
  match c with
  | [] => []
  | ti :: _ => (bandNames ti.image).map (fun n => (n, med (c.map (fun u => bandValue u.image n))))

/-- A yearly composite: the median image together with the
`system:time_start` and `valid` properties set by lines 180–190. -/
structure Composite where
  timeStart : ℕ
  valid : ℕ
  image : Image

/-- Lines 179–191: the composite for year `y` — the median of the fitted
collection over the June 1 – September 30 window of that year, with
`valid = 1` when the composite has bands and `valid = 0` when it has none
(`ee.Algorithms.If(composite_i.bandNames(), …)`: a populated band list is
truthy, an empty one falsy). -/
def compositeForYear (med : List ℝ → ℝ) (c : List TimedImage) (y : ℕ) : Composite :=
  let startDate := fromYMD y 6 1
  let endDate := fromYMD y 9 30
  let composite := reduceMedian med (filterDate startDate endDate c)
  ⟨startDate, if bandNames composite = [] then 0 else 1, composite⟩

/-- Source: `var stepList = ee.List.sequence(2013, 2023);` -/
def stepList : List ℕ :=
  List.range' 2013 11

/-- Lines 179–194: the per-year composites, in `stepList` order. -/
def filterCollection (med : List ℝ → ℝ) (c : List TimedImage) : List Composite :=
  stepList.map (compositeForYear med c)

/-- Line 197: `filterMetadata('valid', 'equals', 1)` — keeps only the valid
composites. -/
def yearlyComposites (med : List ℝ → ℝ) (c : List TimedImage) : List Composite :=
  (filterCollection med c).filter (fun comp => comp.valid == 1)

/-- Line 199: `.select('fitted')` applied to each composite. -/
def selectFitted (comp : Composite) : Composite :=
  ⟨comp.timeStart, comp.valid, comp.image.filter (fun b => b.1 == "fitted")⟩

/-- Source: `var yearlyNDVI = yearlyComposites.select('fitted');` -/
def yearlyNDVI (med : List ℝ → ℝ) (c : List TimedImage) : List Composite :=
  (yearlyComposites med c).map selectFitted

/-- Helper for `.toBands()` starting from image index `i`: each image's bands prefixed
with the image's index in the collection. -/
def toBandsAux : ℕ → List Composite → Image
  | _, [] => []
  | i, comp :: rest =>
      comp.image.map (fun b => (toString i ++ "_" ++ b.1, b.2)) ++ toBandsAux (i + 1) rest

/-- Source: `collection.toBands()` — stacks the collection into a single image whose
band names are `{index}_{band}`. -/
def toBands (comps : List Composite) : Image :=
  toBandsAux 0 comps

/-- Source: `img.select(srcNames, dstNames)` — selects the named bands in the given
order, renaming them; fails if any requested band is absent. -/
def selectRename (img : Image) : List String → List String → Option Image
  | s :: srcRest, d :: dstRest =>
      match List.lookup s img with
      | none => none
      | some v =>
          match selectRename img srcRest dstRest with
          | none => none
          | some rest => some ((d, v) :: rest)
  | _, _ => some []

/-- The source band names of the positional rename in lines 201–203. -/
def fittedNames : List String :=
  ["0_fitted", "1_fitted", "2_fitted", "3_fitted", "4_fitted", "5_fitted",
   "6_fitted", "7_fitted", "8_fitted", "9_fitted", "10_fitted"]

/-- The year labels the positional rename assigns in lines 202–203. -/
def yearNames : List String :=
  ["2013", "2014", "2015", "2016", "2017", "2018", "2019", "2020", "2021",
   "2022", "2023"]

/-- The pixel-wise median of the fitted values in year `y`'s
June 1 – September 30 window. -/
noncomputable def windowMedian (med : List ℝ → ℝ) (fit : List ℝ) (series : List Observation)
    (y : ℕ) : ℝ :=
  med ((filterDate (fromYMD y 6 1) (fromYMD y 9 30) (fittedHarmonic fit series)).map
    (fun u => bandValue u.image "fitted"))

/-- Lines 201–203: the positional select/rename of the yearly stack (the
subsequent `multiply(10000).toShort()` storage encoding applies per band on
top of this). -/
noncomputable def selectedYearly (med : List ℝ → ℝ) (fit : List ℝ)
    (series : List Observation) : Option Image :=
  selectRename (toBands (yearlyNDVI med (fittedHarmonic fit series))) fittedNames yearNames

/-- Column rank deficiency of a design matrix with `numX` columns: some
nonzero column-coefficient vector annihilates every row. -/
def RankDeficient (numX : ℕ) (rows : List (List ℝ)) : Prop :=
  ∃ c : Fin numX → ℝ, c ≠ 0 ∧ ∀ r ∈ rows, (∑ j, c j * r.getD j 0) = 0

open Classical in
/-- Modelled from the spec: `ee.Reducer.linearRegression(numX, 1)` is
platform code absent from the repository.  Per the spec's solver contract
(§4.3) it reports a no-data (undefined) coefficient vector when there are
fewer observations than design columns or the design matrix is
rank-deficient, and otherwise the least-squares solution, here computed by
an abstract solver `solve`. -/
noncomputable def linearRegressionReducer (solve : List (List ℝ × ℝ) → List ℝ) (numX : ℕ)
    (data : List (List ℝ × ℝ)) : Option (List ℝ) :=
  if data.length < numX then none
  else if RankDeficient numX (data.map Prod.fst) then none
  else some (solve data)

/-- Line 133: one observation's contribution to the regression reduction —
the `independents` row paired with the dependent (`NDVI`) value. -/
noncomputable def regressionData (series : List Observation) : List (List ℝ × ℝ) :=
  series.map (fun o => (designRow o, bandValue (buildImage o) "NDVI"))

/-- Lines 131–134 for one pixel: the regression reduction over the pixel's
masked time series. -/
noncomputable def pixelFit (solve : List (List ℝ × ℝ) → List ℝ)
    (series : List Observation) : Option (List ℝ) :=
  linearRegressionReducer solve independents.length (regressionData series)

/-- The derived coefficient/amplitude/phase/mean bands of one pixel:
undefined propagates from an undefined coefficient vector. -/
noncomputable def pixelCoefficientsImage (solve : List (List ℝ × ℝ) → List ℝ)
    (series : List Observation) : Option Image :=
  (pixelFit solve series).map (fun fit => harmonicTrendCoefficients fit series)

/-- The fitted values of one pixel's series: undefined propagates from an
undefined coefficient vector. -/
noncomputable def pixelFittedSeries (solve : List (List ℝ × ℝ) → List ℝ)
    (series : List Observation) : Option (List ℝ) :=
  (pixelFit solve series).map (fun fit => series.map (fun o => fittedValue fit (buildImage o)))

/-- The regression applied over a grid of pixels: each pixel's time series
is reduced independently. -/
noncomputable def fitGrid (solve : List (List ℝ × ℝ) → List ℝ)
    (grid : List (List Observation)) : List (Option (List ℝ)) :=
  grid.map (pixelFit solve)

/-- Modelled from the spec (storage encoding of the ℝ-valued bands, as
`encodeShort` over ℚ): `multiply(10000).toShort()` applied per band. -/
noncomputable def quantizeImage (img : Image) : List (String × ℤ) :=
  img.map (fun b => (b.1, max (-32768) (min 32767 (round (b.2 * 10000)))))

/-- The whole per-pixel pipeline: the regression fit, the quantized
coefficient/amplitude/phase/mean export (`output`, lines 240–241), and the
quantized positional yearly fitted export (`outImage`, lines 201–205), as a
function of the abstract platform reducers and the pixel's masked
observation series. -/
noncomputable def runPipeline (solve : List (List ℝ × ℝ) → List ℝ) (med : List ℝ → ℝ)
    (series : List Observation) :
    Option (List (String × ℤ)) × Option (List (String × ℤ)) :=
  ((pixelFit solve series).map (fun fit => quantizeImage (harmonicTrendCoefficients fit series)),
   (pixelFit solve series).bind (fun fit => (selectedYearly med fit series).map quantizeImage))

/-- A concrete ten-observation series: one observation each July 1 of
2014–2023 and none in 2013's seasonal window. -/
def witnessSeries : List Observation :=
  [⟨0, 20140701, 0⟩, ⟨0, 20150701, 0⟩, ⟨0, 20160701, 0⟩, ⟨0, 20170701, 0⟩,
   ⟨0, 20180701, 0⟩, ⟨0, 20190701, 0⟩, ⟨0, 20200701, 0⟩, ⟨0, 20210701, 0⟩,
   ⟨0, 20220701, 0⟩, ⟨0, 20230701, 0⟩]

/-- A concrete eleven-observation series: one observation each July 1 of
2013–2023, so every year's seasonal window is populated. -/
def witnessSeriesAll : List Observation :=
  [⟨0, 20130701, 0⟩, ⟨0, 20140701, 0⟩, ⟨0, 20150701, 0⟩, ⟨0, 20160701, 0⟩,
   ⟨0, 20170701, 0⟩, ⟨0, 20180701, 0⟩, ⟨0, 20190701, 0⟩, ⟨0, 20200701, 0⟩,
   ⟨0, 20210701, 0⟩, ⟨0, 20220701, 0⟩, ⟨0, 20230701, 0⟩]

/-- A degenerate median reducer used to instantiate theorems about the
compositor at concrete inputs. -/
def medZero : List ℝ → ℝ := fun _ => 0

/-- A degenerate abstract solver used to instantiate theorems about the
regression at concrete inputs. -/
def solveZero : List (List ℝ × ℝ) → List ℝ := fun _ => []

/-! ## Theorems -/

/-- C3: For every observation, the regression design row has the fixed column
ordering `[constant, t, cos_1..cos_k, sin_1..sin_k]` — the constant column
first, then the linear time term, then all `k` cosine terms `cos(i·t)`, then
all `k` sine terms `sin(i·t)` — and its width is `2 + 2k`. -/
theorem design_row_fixed_ordering (k : ℕ) (o : Observation) :
    independentsK k = ["constant", "t"] ++ cosNamesK k ++ sinNamesK k
    ∧ (independentsK k).length = 2 + 2 * k
    ∧ designRow o
        = [1, timeRadians o]
          ++ harmonicFrequencies.map (fun i => Real.cos (timeRadians o * i))
          ++ harmonicFrequencies.map (fun i => Real.sin (timeRadians o * i)) := by
  refine ⟨rfl, ?_, ?_⟩
  · simp [independentsK, cosNamesK, sinNamesK, getNames, harmonicFrequenciesK]
    ring
  · rfl

/-- Witness for `design_row_fixed_ordering` (no propositional hypotheses; the
universally quantified inputs are instantiated concretely). -/
theorem design_row_fixed_ordering_witness :
    independentsK 3 = ["constant", "t"] ++ cosNamesK 3 ++ sinNamesK 3
    ∧ (independentsK 3).length = 2 + 2 * 3
    ∧ designRow ⟨0, 19700101, 0⟩
        = [1, timeRadians ⟨0, 19700101, 0⟩]
          ++ harmonicFrequencies.map (fun i => Real.cos (timeRadians ⟨0, 19700101, 0⟩ * i))
          ++ harmonicFrequencies.map (fun i => Real.sin (timeRadians ⟨0, 19700101, 0⟩ * i)) :=
  design_row_fixed_ordering 3 ⟨0, 19700101, 0⟩

/-- C1 (counterexample): at the concrete fitted coefficients `sin_1 = 3`,
`cos_1 = 4`, the `amplitude_1` band of the exported coefficients image is
`hypot(3,4) * 5 = 25`, not the analytical amplitude `hypot(3,4) = 5`: the
script folds the ×5 visualization scale factor into the exported band. -/
theorem amplitude_band_not_plain_hypot :
    bandValue (harmonicTrendCoefficients [0, 0, 4, 0, 0, 3, 0, 0] []) "amplitude_1"
      ≠ hypot 3 4 := by
  have h5 : hypot 3 4 = 5 := by
    unfold hypot
    rw [show ((3 : ℝ) ^ 2 + 4 ^ 2) = 5 ^ 2 by norm_num, Real.sqrt_sq (by norm_num)]
  have hb : bandValue (harmonicTrendCoefficients [0, 0, 4, 0, 0, 3, 0, 0] []) "amplitude_1"
      = hypot 3 4 * 5 := rfl
  rw [hb, h5]
  norm_num

/-- C1 (amended): for every fitted coefficient vector, every harmonic index
`i` and every series, the `amplitude_i` band of the exported coefficients
image equals `5 * hypot(sin_i, cos_i)` — the analytical amplitude times the
×5 visualization scale factor the script folds into the exported band (the
export then applies the uniform ×10000 int16 storage encoding to every
band). -/
theorem amplitude_band_is_five_times_hypot
    (c t k1 k2 k3 s1 s2 s3 : ℝ) (series : List Observation) :
    bandValue (harmonicTrendCoefficients [c, t, k1, k2, k3, s1, s2, s3] series) "amplitude_1"
        = 5 * hypot s1 k1
    ∧ bandValue (harmonicTrendCoefficients [c, t, k1, k2, k3, s1, s2, s3] series) "amplitude_2"
        = 5 * hypot s2 k2
    ∧ bandValue (harmonicTrendCoefficients [c, t, k1, k2, k3, s1, s2, s3] series) "amplitude_3"
        = 5 * hypot s3 k3 :=
  ⟨mul_comm (hypot s1 k1) 5, mul_comm (hypot s2 k2) 5, mul_comm (hypot s3 k3) 5⟩

/-- The rescaled angle always lands in `[0, 1]`: `atan2` ranges over
`(-π, π]` and `unitScale (-π) π` maps that interval into the unit
interval. -/
theorem unitScale_atan2_mem_unitInterval (y x : ℝ) :
    0 ≤ unitScale (-Real.pi) Real.pi (atan2 y x)
    ∧ unitScale (-Real.pi) Real.pi (atan2 y x) ≤ 1 := by
  have h1 : -Real.pi < Complex.arg ⟨x, y⟩ := Complex.neg_pi_lt_arg _
  have h2 : Complex.arg ⟨x, y⟩ ≤ Real.pi := Complex.arg_le_pi _
  have hπ : 0 < Real.pi := Real.pi_pos
  unfold unitScale atan2
  constructor
  · apply div_nonneg <;> linarith
  · rw [div_le_one (by linarith)]
    linarith

/-- C4: for every fitted coefficient vector whose harmonic pairs are not
both zero, each `phase_i` band equals `atan2(sin_i, cos_i)` rescaled
linearly from `[-π, π]` to `[0, 1]`, and consequently lies in the closed
unit interval. -/
theorem phase_band_formula_and_unit_range
    (c t k1 k2 k3 s1 s2 s3 : ℝ) (series : List Observation)
    (h1 : ¬(s1 = 0 ∧ k1 = 0)) (h2 : ¬(s2 = 0 ∧ k2 = 0)) (h3 : ¬(s3 = 0 ∧ k3 = 0)) :
    (bandValue (harmonicTrendCoefficients [c, t, k1, k2, k3, s1, s2, s3] series) "phase_1"
        = unitScale (-Real.pi) Real.pi (atan2 s1 k1)
      ∧ 0 ≤ bandValue (harmonicTrendCoefficients [c, t, k1, k2, k3, s1, s2, s3] series) "phase_1"
      ∧ bandValue (harmonicTrendCoefficients [c, t, k1, k2, k3, s1, s2, s3] series) "phase_1" ≤ 1)
    ∧ (bandValue (harmonicTrendCoefficients [c, t, k1, k2, k3, s1, s2, s3] series) "phase_2"
        = unitScale (-Real.pi) Real.pi (atan2 s2 k2)
      ∧ 0 ≤ bandValue (harmonicTrendCoefficients [c, t, k1, k2, k3, s1, s2, s3] series) "phase_2"
      ∧ bandValue (harmonicTrendCoefficients [c, t, k1, k2, k3, s1, s2, s3] series) "phase_2" ≤ 1)
    ∧ (bandValue (harmonicTrendCoefficients [c, t, k1, k2, k3, s1, s2, s3] series) "phase_3"
        = unitScale (-Real.pi) Real.pi (atan2 s3 k3)
      ∧ 0 ≤ bandValue (harmonicTrendCoefficients [c, t, k1, k2, k3, s1, s2, s3] series) "phase_3"
      ∧ bandValue (harmonicTrendCoefficients [c, t, k1, k2, k3, s1, s2, s3] series) "phase_3" ≤ 1) :=
  ⟨⟨rfl, (unitScale_atan2_mem_unitInterval s1 k1).1, (unitScale_atan2_mem_unitInterval s1 k1).2⟩,
   ⟨rfl, (unitScale_atan2_mem_unitInterval s2 k2).1, (unitScale_atan2_mem_unitInterval s2 k2).2⟩,
   ⟨rfl, (unitScale_atan2_mem_unitInterval s3 k3).1, (unitScale_atan2_mem_unitInterval s3 k3).2⟩⟩

/-- Witness for `phase_band_formula_and_unit_range`: at the coefficient
vector with every `sin_i = 0` and every `cos_i = 1`, the not-both-zero
hypotheses hold and the phase bands carry the rescaled angle in `[0, 1]`. -/
theorem phase_band_formula_and_unit_range_witness :
    (¬((0 : ℝ) = 0 ∧ (1 : ℝ) = 0))
    ∧ ((bandValue (harmonicTrendCoefficients [0, 0, 1, 1, 1, 0, 0, 0] []) "phase_1"
          = unitScale (-Real.pi) Real.pi (atan2 0 1)
        ∧ 0 ≤ bandValue (harmonicTrendCoefficients [0, 0, 1, 1, 1, 0, 0, 0] []) "phase_1"
        ∧ bandValue (harmonicTrendCoefficients [0, 0, 1, 1, 1, 0, 0, 0] []) "phase_1" ≤ 1)
      ∧ (bandValue (harmonicTrendCoefficients [0, 0, 1, 1, 1, 0, 0, 0] []) "phase_2"
          = unitScale (-Real.pi) Real.pi (atan2 0 1)
        ∧ 0 ≤ bandValue (harmonicTrendCoefficients [0, 0, 1, 1, 1, 0, 0, 0] []) "phase_2"
        ∧ bandValue (harmonicTrendCoefficients [0, 0, 1, 1, 1, 0, 0, 0] []) "phase_2" ≤ 1)
      ∧ (bandValue (harmonicTrendCoefficients [0, 0, 1, 1, 1, 0, 0, 0] []) "phase_3"
          = unitScale (-Real.pi) Real.pi (atan2 0 1)
        ∧ 0 ≤ bandValue (harmonicTrendCoefficients [0, 0, 1, 1, 1, 0, 0, 0] []) "phase_3"
        ∧ bandValue (harmonicTrendCoefficients [0, 0, 1, 1, 1, 0, 0, 0] []) "phase_3" ≤ 1)) :=
  ⟨by norm_num,
   phase_band_formula_and_unit_range 0 0 1 1 1 0 0 0 []
     (by norm_num) (by norm_num) (by norm_num)⟩

/-- C5: For every observation, the time regressor `t` added by the feature
builder equals the elapsed time from the 1970-01-01 epoch to the
observation's timestamp, in fractional years, multiplied by `2π`. -/
theorem time_band_is_fractional_years_times_two_pi (o : Observation) :
    bandValue (buildImage o) "t"
      = dateDifferenceYears o.date epoch1970 * (2 * Real.pi) := by
  simp [buildImage, buildImageK, addHarmonics, addTime, addConstant, ndviImage,
    bandValue, harmonicFrequenciesK, harmonics, List.lookup, List.range']

/-- C6: For every observation and every fitted coefficient vector (its
length is the design width `2 + 2·harmonics = 8`), the fitted value attached
to the observation equals the dot product of the observation's design row
with the coefficient vector. -/
theorem fitted_value_is_dot_product (c0 c1 c2 c3 c4 c5 c6 c7 : ℝ) (o : Observation) :
    ([c0, c1, c2, c3, c4, c5, c6, c7] : List ℝ).length = 2 + 2 * harmonics
    ∧ fittedValue [c0, c1, c2, c3, c4, c5, c6, c7] (buildImage o)
        = dotProduct (designRow o) [c0, c1, c2, c3, c4, c5, c6, c7] := by
  exact ⟨rfl, rfl⟩

/-- C8: Modelled from the spec (`round(v·10000)` clamped to int16 for the
platform's `toShort`): whenever no clamping occurs — `round(v·10000)` is
inside the signed 16-bit range — decoding the stored value (divide by
10000) lands within `0.0001` of the original coefficient value. -/
theorem quantization_round_trip (v : ℚ)
    (hlo : -32768 ≤ round (v * 10000)) (hhi : round (v * 10000) ≤ 32767) :
    |decodeShort (encodeShort v) - v| ≤ 1 / 10000 := by
  have he : encodeShort v = round (v * 10000) := by
    unfold encodeShort
    omega
  rw [he]
  unfold decodeShort
  have hr : |v * 10000 - ((round (v * 10000) : ℤ) : ℚ)| ≤ 1 / 2 := abs_sub_round _
  rw [show (((round (v * 10000) : ℤ) : ℚ) / 10000 - v)
      = -((v * 10000 - ((round (v * 10000) : ℤ) : ℚ)) / 10000) by ring, abs_neg, abs_div]
  rw [show |(10000 : ℚ)| = 10000 by norm_num, div_le_iff (by norm_num)]
  linarith

/-- Witness for `quantization_round_trip` at `v = 0`. -/
theorem quantization_round_trip_witness :
    (-32768 ≤ round ((0 : ℚ) * 10000) ∧ round ((0 : ℚ) * 10000) ≤ 32767)
    ∧ |decodeShort (encodeShort 0) - 0| ≤ 1 / 10000 :=
  ⟨⟨by norm_num, by norm_num⟩,
   quantization_round_trip 0 (by norm_num) (by norm_num)⟩

/-- Every image of the fitted collection carries the fixed ten-band list,
ending in `fitted`. -/
theorem buildImage_fitted_bandNames (o : Observation) (v : ℝ) :
    bandNames (buildImage o ++ [("fitted", v)])
      = ["NDVI", "constant", "t", "cos_1", "cos_2", "cos_3",
         "sin_1", "sin_2", "sin_3", "fitted"] := rfl

/-- A yearly composite of the fitted collection is valid exactly when its
seasonal window holds at least one observation. -/
theorem composite_valid_eq_one_iff (med : List ℝ → ℝ) (fit : List ℝ)
    (series : List Observation) (y : ℕ) :
    (compositeForYear med (fittedHarmonic fit series) y).valid = 1
      ↔ filterDate (fromYMD y 6 1) (fromYMD y 9 30) (fittedHarmonic fit series) ≠ [] := by
  cases hfd : filterDate (fromYMD y 6 1) (fromYMD y 9 30) (fittedHarmonic fit series) with
  | nil => simp [compositeForYear, hfd, reduceMedian, bandNames]
  | cons hd tl =>
      have hmem : hd ∈ fittedHarmonic fit series := by
        have h1 : hd ∈ filterDate (fromYMD y 6 1) (fromYMD y 9 30) (fittedHarmonic fit series) := by
          rw [hfd]; exact List.mem_cons_self hd tl
        exact List.mem_of_mem_filter h1
      obtain ⟨o, _, himg⟩ := List.mem_map.mp hmem
      subst himg
      simp [compositeForYear, hfd, reduceMedian, bandNames]

/-- The `select('fitted')` of a valid yearly composite: the single `fitted`
band carrying the window median, labeled with the window's start date. -/
theorem selectFitted_compositeForYear (med : List ℝ → ℝ) (fit : List ℝ)
    (series : List Observation) (y : ℕ)
    (hw : filterDate (fromYMD y 6 1) (fromYMD y 9 30) (fittedHarmonic fit series) ≠ []) :
    selectFitted (compositeForYear med (fittedHarmonic fit series) y)
      = ⟨fromYMD y 6 1, 1, [("fitted", windowMedian med fit series y)]⟩ := by
  cases hfd : filterDate (fromYMD y 6 1) (fromYMD y 9 30) (fittedHarmonic fit series) with
  | nil => exact absurd hfd hw
  | cons hd tl =>
      have hmem : hd ∈ fittedHarmonic fit series := by
        have h1 : hd ∈ filterDate (fromYMD y 6 1) (fromYMD y 9 30) (fittedHarmonic fit series) := by
          rw [hfd]; exact List.mem_cons_self hd tl
        exact List.mem_of_mem_filter h1
      obtain ⟨o, _, himg⟩ := List.mem_map.mp hmem
      subst himg
      simp only [selectFitted, compositeForYear, windowMedian, reduceMedian, hfd]
      rw [show bandNames
            (TimedImage.mk o.day
              (buildImage o ++ [("fitted", fittedValue fit (buildImage o))])).image
          = ["NDVI", "constant", "t", "cos_1", "cos_2", "cos_3",
             "sin_1", "sin_2", "sin_3", "fitted"] from rfl]
      simp [bandNames]

/-- A `toBands` stack of a collection of single-band images has one band per
image, whatever the starting index. -/
theorem toBandsAux_length (comps : List Composite)
    (h : ∀ comp ∈ comps, comp.image.length = 1) :
    ∀ i, (toBandsAux i comps).length = comps.length := by
  induction comps with
  | nil => intro i; rfl
  | cons hd tl ih =>
      intro i
      have hhd : hd.image.length = 1 := h hd (List.mem_cons_self hd tl)
      have htl : ∀ comp ∈ tl, comp.image.length = 1 :=
        fun comp hc => h comp (List.mem_cons_of_mem hd hc)
      simp [toBandsAux, ih htl, hhd]
      omega

/-- C2: if year `y₀`'s seasonal window holds zero observations while every
other year's window is populated, then `y₀`'s composite is dropped from the
yearly composite stack entirely: the stack is exactly the composites of the
remaining years in their original ascending order, its length (and the band
count of the stacked output) decreases by exactly one, and every remaining
composite keeps its correct year label (its `system:time_start`, the June 1
start date of its own year). -/
theorem empty_year_composite_dropped (med : List ℝ → ℝ) (fit : List ℝ)
    (series : List Observation) (y₀ : ℕ) (hy : y₀ ∈ stepList)
    (hempty : filterDate (fromYMD y₀ 6 1) (fromYMD y₀ 9 30) (fittedHarmonic fit series) = [])
    (hrest : ∀ y ∈ stepList, y ≠ y₀ →
      filterDate (fromYMD y 6 1) (fromYMD y 9 30) (fittedHarmonic fit series) ≠ []) :
    yearlyComposites med (fittedHarmonic fit series)
        = (stepList.filter (· != y₀)).map (compositeForYear med (fittedHarmonic fit series))
    ∧ (yearlyComposites med (fittedHarmonic fit series)).length = stepList.length - 1
    ∧ (yearlyComposites med (fittedHarmonic fit series)).map Composite.timeStart
        = (stepList.filter (· != y₀)).map (fun y => fromYMD y 6 1)
    ∧ (toBands (yearlyNDVI med (fittedHarmonic fit series))).length = stepList.length - 1 := by
  have hnodup : stepList.Nodup := by decide
  have hpt : ∀ y ∈ stepList,
      ((compositeForYear med (fittedHarmonic fit series) y).valid == 1) = (y != y₀) := by
    intro y hy'
    by_cases hcase : y = y₀
    · subst hcase
      have hv : (compositeForYear med (fittedHarmonic fit series) y).valid = 0 := by
        simp [compositeForYear, hempty, reduceMedian, bandNames]
      rw [hv]
      simp
    · have hv : (compositeForYear med (fittedHarmonic fit series) y).valid = 1 :=
        (composite_valid_eq_one_iff med fit series y).mpr (hrest y hy' hcase)
      rw [hv]
      simp [hcase]
  have hfil : yearlyComposites med (fittedHarmonic fit series)
      = (stepList.filter (· != y₀)).map (compositeForYear med (fittedHarmonic fit series)) := by
    unfold yearlyComposites filterCollection
    rw [List.filter_map]
    congr 1
    exact List.filter_congr hpt
  have hlen : (stepList.filter (· != y₀)).length = stepList.length - 1 := by
    rw [← hnodup.erase_eq_filter y₀, List.length_erase_of_mem hy]
  refine ⟨hfil, ?_, ?_, ?_⟩
  · rw [hfil, List.length_map, hlen]
  · rw [hfil, List.map_map]
    exact List.map_congr_left fun y _ => rfl
  · have himg : ∀ comp ∈ (stepList.filter (· != y₀)).map
        (selectFitted ∘ compositeForYear med (fittedHarmonic fit series)),
        comp.image.length = 1 := by
      intro comp hcomp
      obtain ⟨y, hy', hcy⟩ := List.mem_map.mp hcomp
      have hymem := List.mem_filter.mp hy'
      have hne : y ≠ y₀ := by simpa using hymem.2
      rw [← hcy]
      show (selectFitted (compositeForYear med (fittedHarmonic fit series) y)).image.length = 1
      rw [selectFitted_compositeForYear med fit series y (hrest y hymem.1 hne)]
      rfl
    unfold yearlyNDVI toBands
    rw [hfil, List.map_map, toBandsAux_length _ himg 0, List.length_map, hlen]

/-- Witness for `empty_year_composite_dropped` at the concrete series with
an empty 2013 window and populated 2014–2023 windows. -/
theorem empty_year_composite_dropped_witness :
    ((2013 ∈ stepList)
      ∧ filterDate (fromYMD 2013 6 1) (fromYMD 2013 9 30) (fittedHarmonic [] witnessSeries) = []
      ∧ ∀ y ∈ stepList, y ≠ 2013 →
          filterDate (fromYMD y 6 1) (fromYMD y 9 30) (fittedHarmonic [] witnessSeries) ≠ [])
    ∧ (yearlyComposites medZero (fittedHarmonic [] witnessSeries)
          = (stepList.filter (· != 2013)).map
              (compositeForYear medZero (fittedHarmonic [] witnessSeries))
      ∧ (yearlyComposites medZero (fittedHarmonic [] witnessSeries)).length = stepList.length - 1
      ∧ (yearlyComposites medZero (fittedHarmonic [] witnessSeries)).map Composite.timeStart
          = (stepList.filter (· != 2013)).map (fun y => fromYMD y 6 1)
      ∧ (toBands (yearlyNDVI medZero (fittedHarmonic [] witnessSeries))).length
          = stepList.length - 1) := by
  have h1 : (2013 : ℕ) ∈ stepList := by decide
  have h2 : filterDate (fromYMD 2013 6 1) (fromYMD 2013 9 30)
      (fittedHarmonic [] witnessSeries) = [] := rfl
  have h3 : ∀ y ∈ stepList, y ≠ 2013 →
      filterDate (fromYMD y 6 1) (fromYMD y 9 30) (fittedHarmonic [] witnessSeries) ≠ [] := by
    intro y hy hne
    fin_cases hy
    · exact absurd rfl hne
    all_goals exact List.ne_nil_of_length_pos (by decide)
  exact ⟨⟨h1, h2, h3⟩, empty_year_composite_dropped medZero [] witnessSeries 2013 h1 h2 h3⟩

/-- Every image of the `yearlyNDVI` collection is the single `fitted` band
of a valid composite. -/
theorem yearlyNDVI_image_shape (med : List ℝ → ℝ) (fit : List ℝ) (series : List Observation) :
    ∀ comp ∈ yearlyNDVI med (fittedHarmonic fit series), bandNames comp.image = ["fitted"] := by
  intro comp hcomp
  unfold yearlyNDVI yearlyComposites filterCollection at hcomp
  obtain ⟨comp', hcomp', rfl⟩ := List.mem_map.mp hcomp
  have hfil := List.mem_filter.mp hcomp'
  obtain ⟨y, hy, rfl⟩ := List.mem_map.mp hfil.1
  have hvalid : (compositeForYear med (fittedHarmonic fit series) y).valid = 1 := by
    simpa using hfil.2
  have hw := (composite_valid_eq_one_iff med fit series y).mp hvalid
  rw [selectFitted_compositeForYear med fit series y hw]
  rfl

/-- A name matching no key of an association-list image is not found. -/
theorem lookup_eq_none_of_forall_ne {img : Image} {n : String}
    (h : ∀ b ∈ img, b.1 ≠ n) : List.lookup n img = none := by
  induction img with
  | nil => rfl
  | cons hd tl ih =>
      have hne : n ≠ hd.1 := fun he => h hd (List.mem_cons_self hd tl) he.symm
      have ht : List.lookup n tl = none := ih fun b hb => h b (List.mem_cons_of_mem hd hb)
      cases hd with
      | mk k v =>
          have hfalse : (n == k) = false := beq_eq_false_iff_ne.mpr hne
          simp [List.lookup_cons, hfalse, ht]

/-- A `select(src, dst)` call fails whenever one of the requested source bands is
absent from the image. -/
theorem selectRename_none_of_missing {img : Image} :
    ∀ {src dst : List String} {s : String}, s ∈ src → src.length ≤ dst.length →
      List.lookup s img = none → selectRename img src dst = none := by
  intro src
  induction src with
  | nil => intro dst s hs _ _; exact absurd hs (List.not_mem_nil s)
  | cons a srcRest ih =>
      intro dst s hs hlen hnone
      cases dst with
      | nil => simp at hlen
      | cons d dstRest =>
          rcases List.mem_cons.mp hs with rfl | hs'
          · simp [selectRename, hnone]
          · unfold selectRename
            cases List.lookup a img with
            | none => rfl
            | some v =>
                rw [ih hs' (by simpa using hlen) hnone]

/-- Every band of the positional stack of single-`fitted`-band composites is
named `{j}_fitted` for some image index `j` below the collection length. -/
theorem toBandsAux_key_shape :
    ∀ (comps : List Composite), (∀ comp ∈ comps, bandNames comp.image = ["fitted"]) →
      ∀ i b, b ∈ toBandsAux i comps →
        ∃ j, i ≤ j ∧ j < i + comps.length ∧ b.1 = toString j ++ "_" ++ "fitted" := by
  intro comps
  induction comps with
  | nil => intro _ i b hb; exact absurd hb (List.not_mem_nil b)
  | cons hd tl ih =>
      intro h i b hb
      rcases List.mem_append.mp hb with hhd | htl
      · obtain ⟨p, hp, rfl⟩ := List.mem_map.mp hhd
        refine ⟨i, le_refl i, by simp, ?_⟩
        have hn : p.1 ∈ bandNames hd.image := List.mem_map.mpr ⟨p, hp, rfl⟩
        rw [h hd (List.mem_cons_self hd tl)] at hn
        simp only [List.mem_singleton] at hn
        simp [hn]
      · obtain ⟨j, hj1, hj2, hj3⟩ :=
          ih (fun comp hc => h comp (List.mem_cons_of_mem hd hc)) (i + 1) b htl
        exact ⟨j, by omega, by simp; omega, hj3⟩

/-- C10: the yearly fitted-NDVI export renames the positional bands
`0_fitted` … `10_fitted` to the fixed year labels `2013` … `2023`.  When
every year 2013–2023 contributes at least one observation to its
June 1 – September 30 window, the selection succeeds and band `Y` is
exactly year `Y`'s pixel-wise median of fitted values; when some year's
composite is dropped as invalid, the positional select fails (band
`10_fitted` is absent). -/
theorem positional_year_rename (med : List ℝ → ℝ) (fit : List ℝ) (series : List Observation) :
    ((∀ y ∈ stepList,
        filterDate (fromYMD y 6 1) (fromYMD y 9 30) (fittedHarmonic fit series) ≠ []) →
      selectedYearly med fit series
        = some (stepList.map (fun y => (toString y, windowMedian med fit series y))))
    ∧ ((∃ y ∈ stepList,
        filterDate (fromYMD y 6 1) (fromYMD y 9 30) (fittedHarmonic fit series) = []) →
      selectedYearly med fit series = none) := by
  constructor
  · intro hall
    have hcomps : yearlyComposites med (fittedHarmonic fit series)
        = filterCollection med (fittedHarmonic fit series) := by
      unfold yearlyComposites
      rw [List.filter_eq_self]
      intro comp hcomp
      obtain ⟨y, hy, rfl⟩ := List.mem_map.mp hcomp
      have hv : (compositeForYear med (fittedHarmonic fit series) y).valid = 1 :=
        (composite_valid_eq_one_iff med fit series y).mpr (hall y hy)
      simp [hv]
    have hyn : yearlyNDVI med (fittedHarmonic fit series)
        = stepList.map (fun y =>
            Composite.mk (fromYMD y 6 1) 1 [("fitted", windowMedian med fit series y)]) := by
      unfold yearlyNDVI
      rw [hcomps]
      unfold filterCollection
      rw [List.map_map]
      exact List.map_congr_left fun y hy =>
        selectFitted_compositeForYear med fit series y (hall y hy)
    unfold selectedYearly
    rw [hyn]
    rfl
  · rintro ⟨y₀, hy₀, hempty⟩
    have hshape := yearlyNDVI_image_shape med fit series
    have hflen : (filterCollection med (fittedHarmonic fit series)).length = stepList.length := by
      unfold filterCollection
      rw [List.length_map]
    have hlen : (yearlyNDVI med (fittedHarmonic fit series)).length + 1 ≤ stepList.length := by
      unfold yearlyNDVI yearlyComposites
      rw [List.length_map]
      have hle := List.length_filter_le (fun comp => comp.valid == 1)
        (filterCollection med (fittedHarmonic fit series))
      have hne : ((filterCollection med (fittedHarmonic fit series)).filter
          (fun comp => comp.valid == 1)).length
          ≠ (filterCollection med (fittedHarmonic fit series)).length := by
        intro heq
        have hallv := List.filter_length_eq_length.mp heq
        have hmem : compositeForYear med (fittedHarmonic fit series) y₀
            ∈ filterCollection med (fittedHarmonic fit series) := by
          unfold filterCollection
          exact List.mem_map.mpr ⟨y₀, hy₀, rfl⟩
        have hv1 : (compositeForYear med (fittedHarmonic fit series) y₀).valid = 1 := by
          simpa using hallv _ hmem
        exact (composite_valid_eq_one_iff med fit series y₀).mp hv1 hempty
      omega
    have hkeys := toBandsAux_key_shape (yearlyNDVI med (fittedHarmonic fit series)) hshape 0
    have hnone : List.lookup "10_fitted"
        (toBands (yearlyNDVI med (fittedHarmonic fit series))) = none := by
      apply lookup_eq_none_of_forall_ne
      intro b hb
      obtain ⟨j, _, hj2, hj3⟩ := hkeys b hb
      rw [hj3]
      have hstep : stepList.length = 11 := rfl
      have hj : j < 10 := by omega
      interval_cases j <;> decide
    unfold selectedYearly
    exact selectRename_none_of_missing (by decide : "10_fitted" ∈ fittedNames)
      (by decide) hnone

/-- C7: a pixel whose series holds fewer valid observations than the
`2 + 2·harmonics` design columns, or whose design matrix is rank-deficient,
gets a no-data coefficient vector, and all its derived bands (coefficient
image with amplitude/phase, fitted values) are no-data, while every other
pixel of the grid is computed independently: replacing the degenerate
pixel's series changes no other pixel's result. -/
theorem degenerate_pixel_no_data (solve : List (List ℝ × ℝ) → List ℝ)
    (grid : List (List Observation)) (p : ℕ) (hp : p < grid.length)
    (hdeg : (grid[p]).length < 2 + 2 * harmonics
      ∨ RankDeficient independents.length (List.map Prod.fst (regressionData (grid[p])))) :
    pixelFit solve (grid[p]) = none
    ∧ pixelCoefficientsImage solve (grid[p]) = none
    ∧ pixelFittedSeries solve (grid[p]) = none
    ∧ (fitGrid solve grid)[p]? = some none
    ∧ ∀ (s' : List Observation) (q : ℕ), q ≠ p →
        (fitGrid solve (grid.set p s'))[q]? = (fitGrid solve grid)[q]? := by
  have hfit : pixelFit solve (grid[p]) = none := by
    unfold pixelFit linearRegressionReducer
    rcases hdeg with hlen | hrank
    · rw [if_pos]
      show (regressionData (grid[p])).length < independents.length
      unfold regressionData
      rw [List.length_map]
      exact hlen
    · by_cases hlen : (regressionData (grid[p])).length < independents.length
      · rw [if_pos hlen]
      · rw [if_neg hlen, if_pos hrank]
  refine ⟨hfit, ?_, ?_, ?_, ?_⟩
  · unfold pixelCoefficientsImage
    rw [hfit]
    rfl
  · unfold pixelFittedSeries
    rw [hfit]
    rfl
  · unfold fitGrid
    rw [List.getElem?_map, List.getElem?_eq_getElem hp]
    simp [hfit]
  · intro s' q hq
    unfold fitGrid
    rw [List.getElem?_map, List.getElem?_map, List.getElem?_set_ne (fun h => hq h.symm)]

/-- Witness for `degenerate_pixel_no_data`: a two-pixel grid whose first
pixel has an empty observation series (0 < 8 design columns). -/
theorem degenerate_pixel_no_data_witness :
    (0 < ([([] : List Observation), witnessSeries] : List (List Observation)).length
      ∧ (([([] : List Observation), witnessSeries] : List (List Observation))[0]).length
          < 2 + 2 * harmonics)
    ∧ (pixelFit solveZero (([([] : List Observation), witnessSeries])[0]) = none
      ∧ pixelCoefficientsImage solveZero (([([] : List Observation), witnessSeries])[0]) = none
      ∧ pixelFittedSeries solveZero (([([] : List Observation), witnessSeries])[0]) = none
      ∧ (fitGrid solveZero [([] : List Observation), witnessSeries])[0]? = some none
      ∧ ∀ (s' : List Observation) (q : ℕ), q ≠ 0 →
          (fitGrid solveZero ([([] : List Observation), witnessSeries].set 0 s'))[q]?
            = (fitGrid solveZero [([] : List Observation), witnessSeries])[q]?) :=
  ⟨⟨by decide, by decide⟩,
   degenerate_pixel_no_data solveZero [([] : List Observation), witnessSeries] 0
     (by decide) (Or.inl (by decide))⟩

/-- C9: the pipeline is deterministic — it is a pure function of the input
series and the reducer configuration, so two runs on equal inputs produce
identical outputs (the embedding carries no hidden state; the platform
solver and median reducer enter only through their function arguments). -/
theorem pipeline_deterministic (solve₁ solve₂ : List (List ℝ × ℝ) → List ℝ)
    (med₁ med₂ : List ℝ → ℝ) (s₁ s₂ : List Observation)
    (hsolve : solve₁ = solve₂) (hmed : med₁ = med₂) (hs : s₁ = s₂) :
    runPipeline solve₁ med₁ s₁ = runPipeline solve₂ med₂ s₂ := by
  rw [hsolve, hmed, hs]

/-- Witness for `pipeline_deterministic` at concrete reducers and series. -/
theorem pipeline_deterministic_witness :
    (solveZero = solveZero ∧ medZero = medZero ∧ witnessSeries = witnessSeries)
    ∧ runPipeline solveZero medZero witnessSeries = runPipeline solveZero medZero witnessSeries :=
  ⟨⟨rfl, rfl, rfl⟩,
   pipeline_deterministic solveZero solveZero medZero medZero witnessSeries witnessSeries
     rfl rfl rfl⟩

/-- Witness for `positional_year_rename`: with every yearly window
populated, the positional select succeeds and labels each year's median. -/
theorem positional_year_rename_witness :
    (∀ y ∈ stepList,
        filterDate (fromYMD y 6 1) (fromYMD y 9 30) (fittedHarmonic [] witnessSeriesAll) ≠ [])
    ∧ selectedYearly medZero [] witnessSeriesAll
        = some (stepList.map (fun y => (toString y, windowMedian medZero [] witnessSeriesAll y))) := by
  have hall : ∀ y ∈ stepList,
      filterDate (fromYMD y 6 1) (fromYMD y 9 30) (fittedHarmonic [] witnessSeriesAll) ≠ [] := by
    intro y hy
    fin_cases hy <;> exact List.ne_nil_of_length_pos (by decide)
  exact ⟨hall, (positional_year_rename medZero [] witnessSeriesAll).1 hall⟩

end HarmonicRegression
